import Mathlib

/-!
Verification development for the A7cam tethered-camera core.

We give a shallow embedding of the two subsystems the design document
covers: the Frame Acquisition Engine (`src/camera_handler.py`) and the
Tethered Capture Cache (`src/image_preview.py`), and prove or refute the
behavioural claims made about them.

Modelling conventions:
 - Python `bytes` values are `List Nat` (each entry one byte).
 - Python strings are `List Char`.
 - Wall-clock time (sleep delays, timestamps, the log-throttle clock) is
   abstracted away: timestamps are `0`, retry delays are data that only
   contributes its length, and `time.sleep` is a no-op.
 - Exceptions are `Except` values; a `try/except` block is a `match` on
   the `Except` result of the embedded block body.
 - The gphoto2 driver and the cv2/PIL image codecs are external
   capabilities; their behaviour is supplied as explicit oracle inputs
   (a response per device call), so theorems quantify over every device
   behaviour.
-/

namespace A7cam

/-! ## Generic string / list helpers (embedding Python primitives) -/

/-- Largest `i < n` with `p i`, scanning from the top.  Used to embed
`bytes.rfind` / `str.rfind` (which return the highest matching index). -/
def lastSat (p : Nat → Bool) : Nat → Option Nat
  | 0 => none
  | n + 1 => if p n then some n else lastSat p n

/-- `isPrefixOfB pat l`: Boolean prefix test, embedding `str.startswith`. -/
def isPrefixOfB : List Char → List Char → Bool
  | [], _ => true
  | _ :: _, [] => false
  | a :: as, b :: bs => a == b && isPrefixOfB as bs

/-- `containsSubstr hay needle`: Boolean substring test, embedding the
Python `needle in hay` operator on strings. -/
def containsSubstr (hay needle : List Char) : Bool :=
  match hay with
  | [] => needle.isEmpty
  | _ :: t => isPrefixOfB needle hay || containsSubstr t needle

/-- Lower-case a string character-wise, embedding `str.lower` (our
inputs are ASCII file names). -/
def toLowerStr (s : List Char) : List Char :=
  s.map Char.toLower

/-- Python list indexing `l[i]`: non-negative indices from the front,
negative indices from the back, `none` for an `IndexError`. -/
def pyGet {α : Type} (l : List α) (i : Int) : Option α :=
  if 0 ≤ i then l.get? i.toNat
  else if (-i).toNat ≤ l.length then l.get? (l.length - (-i).toNat)
  else none

/-! ## Frame Normalizer (`CameraHandler._trim_to_eoi`) -/

/-- `isEOIAt b i`: the two-byte End-Of-Image marker `FF D9` occurs in `b`
at index `i` (both bytes in range).  Out-of-range reads default to `0`,
which never equals a marker byte. -/
def isEOIAt (b : List Nat) (i : Nat) : Bool :=
  b.getD i 0 == 0xff && b.getD (i + 1) 0 == 0xd9

/-- Index of the last occurrence of the EOI marker in `b`, embedding
`file_data.rfind(b"\xff\xd9")` (with `none` for Python's `-1`). -/
def lastEOI (b : List Nat) : Option Nat :=
  lastSat (fun i => isEOIAt b i) b.length

/-- Embedding of `CameraHandler._trim_to_eoi`: require at least 4 bytes
and an SOI marker `FF D8` at offset 0, find the last EOI marker, fail if
absent or before offset 2, else keep `[0 .. eoi+2)`.  (The Python
`isinstance` guard is a type-level fact here: inputs are byte lists.) -/
def trim_to_eoi (file_data : List Nat) : Option (List Nat) :=
  if file_data.length < 4 then none
  else if !(file_data.take 2 == [0xff, 0xd8]) then none
  else
    match lastEOI file_data with
    | none => none
    | some eoi_idx => if eoi_idx < 2 then none else some (file_data.take (eoi_idx + 2))

/-! ## Base64 (`base64.b64encode`, standard alphabet) -/

/-- The standard base64 alphabet. -/
def b64Alphabet : List Char :=
  ['A','B','C','D','E','F','G','H','I','J','K','L','M','N','O','P',
   'Q','R','S','T','U','V','W','X','Y','Z',
   'a','b','c','d','e','f','g','h','i','j','k','l','m','n','o','p',
   'q','r','s','t','u','v','w','x','y','z',
   '0','1','2','3','4','5','6','7','8','9','+','/']

/-- Alphabet character of a six-bit group. -/
def b64Char (s : Nat) : Char :=
  b64Alphabet.getD s '='

/-- Six-bit value of an alphabet character (used by the decoder). -/
def b64Value (c : Char) : Nat :=
  b64Alphabet.findIdx (fun x => x == c)

/-- Base64-encode a byte list, embedding `base64.b64encode`: three bytes
become four alphabet characters; a final group of one or two bytes is
padded with `=`. -/
def b64Encode : List Nat → List Char
  | a :: b :: c :: rest =>
      b64Char (a / 4) :: b64Char ((a % 4) * 16 + b / 16) ::
      b64Char ((b % 16) * 4 + c / 64) :: b64Char (c % 64) :: b64Encode rest
  | [a, b] =>
      [b64Char (a / 4), b64Char ((a % 4) * 16 + b / 16), b64Char ((b % 16) * 4), '=']
  | [a] =>
      [b64Char (a / 4), b64Char ((a % 4) * 16), '=', '=']
  | [] => []

/-- Standard base64 decoder (four characters at a time, honouring `=`
padding); used to state that encoding is lossless. -/
def b64Decode : List Char → List Nat
  | c1 :: c2 :: c3 :: c4 :: rest =>
      if c3 = '=' then [b64Value c1 * 4 + b64Value c2 / 16]
      else if c4 = '=' then
        [b64Value c1 * 4 + b64Value c2 / 16, (b64Value c2 % 16) * 16 + b64Value c3 / 4]
      else
        (b64Value c1 * 4 + b64Value c2 / 16) ::
        ((b64Value c2 % 16) * 16 + b64Value c3 / 4) ::
        ((b64Value c3 % 4) * 64 + b64Value c4) :: b64Decode rest
  | _ => []

/-! ## Frame Acquisition Engine (`CameraHandler`) -/

/-- Orientation code for no rotation (`CameraHandler.ORIENTATION_NORMAL`). -/
def ORIENTATION_NORMAL : Nat := 1

/-- Orientation code for 180 degrees (`CameraHandler.ORIENTATION_180`). -/
def ORIENTATION_180 : Nat := 3

/-- Orientation code for 90 degrees counter-clockwise
(`CameraHandler.ORIENTATION_270`). -/
def ORIENTATION_270 : Nat := 6

/-- Orientation code for 90 degrees clockwise (`CameraHandler.ORIENTATION_90`). -/
def ORIENTATION_90 : Nat := 8

/-- Transient I/O error threshold (`CameraHandler._io_error_threshold`). -/
def ioErrorThreshold : Nat := 5

/-- Retry backoff schedule (`CameraHandler._retry_delays`, in ms; only the
length drives the control flow, the delays feed `time.sleep`). -/
def retryDelays : List Nat := [0, 100, 500]

/-- A Python exception raised by the gphoto2 driver or image pipeline:
its string rendering (`str(e)`) and optional `code` attribute. -/
structure CamErr where
  msg : List Char
  code : Option Int
deriving DecidableEq

/-- Mutable fields of `CameraHandler` that the capture pipeline touches.
`camera`/`context` record whether the handles are non-`None`.  Tethering
bookkeeping and the corrupt-log throttle clock are time/IO details not
modelled (tethering is covered by the Tethered Capture Cache model). -/
structure CamState where
  camera : Bool
  context : Bool
  is_streaming : Bool
  lost_device : Bool
  orientation : Nat
  io_error_counter : Nat
  consecutive_corrupt_frames : Nat
  last_capture_ts : Nat
deriving DecidableEq

/-- `CameraHandler.__init__` field values. -/
def initCamState : CamState :=
  { camera := false, context := false, is_streaming := false,
    lost_device := false, orientation := ORIENTATION_NORMAL,
    io_error_counter := 0, consecutive_corrupt_frames := 0,
    last_capture_ts := 0 }

/-- Embedding of `CameraHandler.release`: drop the handles and reset the
session fields (`_consecutive_corrupt_frames` is *not* reset there). -/
def release (st : CamState) : CamState :=
  { st with
    camera := false, context := false, is_streaming := false,
    lost_device := false, orientation := ORIENTATION_NORMAL,
    io_error_counter := 0, last_capture_ts := 0 }

/-- Classification test for a transient busy error: the `-110` checks of
`_handle_capture_error`. -/
def errIsBusy (e : CamErr) : Bool :=
  containsSubstr e.msg ("-110").toList || containsSubstr e.msg ("I/O in progress").toList
    || e.code == some (-110)

/-- Classification test for a USB-disconnect error: the `-52` checks. -/
def errIsNotFound (e : CamErr) : Bool :=
  containsSubstr e.msg ("-52").toList
    || containsSubstr e.msg ("Could not find the requested device").toList

/-- Classification test for an unspecified/fatal error: the `-1` checks. -/
def errIsFatal (e : CamErr) : Bool :=
  containsSubstr e.msg ("-1").toList || containsSubstr e.msg ("Unspecified error").toList

/-- Embedding of `CameraHandler._handle_capture_error`: returns the new
state and whether the capture loop should retry.  The fatal branches set
`lost_device` and then call `release` (which clears it again); the
disconnect callback they fire is an external notification with no effect
on this state. -/
def handleCaptureError (st : CamState) (e : CamErr) : CamState × Bool :=
  if errIsBusy e then
    ({ st with io_error_counter := st.io_error_counter + 1 }, true)
  else if errIsNotFound e then
    (release { st with lost_device := true }, false)
  else if errIsFatal e then
    (release { st with lost_device := true }, false)
  else (st, false)

/-- One device behaviour: the response of the `attempt`-th
`gp_camera_capture_preview` call — either preview bytes or a raised
exception. -/
def DevTrace : Type := Nat → Except CamErr (List Nat)

/-- The retry loop body of `CameraHandler._capture_preview_with_retry`:
one iteration per entry of the backoff schedule, consuming one device
response per attempt; after the schedule is exhausted the transient
counter is compared against the threshold.  Returns the state, the
captured bytes (`none` on failure) and the number of device capture
calls issued. -/
def captureGo (dev : DevTrace) : CamState → Nat → List Nat → CamState × Option (List Nat) × Nat
  | st, k, [] =>
      (if ioErrorThreshold ≤ st.io_error_counter then { st with lost_device := true } else st,
       none, k)
  | st, k, _ :: ds =>
      match dev k with
      | .ok fd => ({ st with io_error_counter := 0 }, some fd, k + 1)
      | .error e =>
          let r := handleCaptureError st e
          if r.2 then captureGo dev r.1 (k + 1) ds else (r.1, none, k + 1)

/-- Embedding of `CameraHandler._capture_preview_with_retry` (the rate
gate and the memoryview copy are time/memory concerns with no effect on
the values returned; tether event polling is modelled separately). -/
def capturePreviewWithRetry (st : CamState) (dev : DevTrace) : CamState × Option (List Nat) × Nat :=
  captureGo dev st 0 retryDelays

/-- Behaviour of the cv2 codec for one tick: `imdecode` may raise or
return `None`; `rotate` is cv2's rotation (by rotate-code, `0` = 90 CW,
`1` = 180, `2` = 90 CCW); `imencode` may raise or return a success flag
and the encoded buffer.  Decoded images are opaque data. -/
structure SlowOracle where
  imdecode : List Nat → Except CamErr (Option (List Nat))
  rotate : Nat → List Nat → List Nat
  imencode : List Nat → Except CamErr (Bool × List Nat)

/-- Embedding of `CameraHandler._apply_rotation`. -/
def applyRotation (st : CamState) (oracle : SlowOracle) (img : List Nat) : List Nat :=
  if st.orientation = ORIENTATION_180 then oracle.rotate 1 img
  else if st.orientation = ORIENTATION_270 then oracle.rotate 2 img
  else if st.orientation = ORIENTATION_90 then oracle.rotate 0 img
  else img

/-- The data-URI marker prepended to every returned frame. -/
def dataUriHeader : List Char := ("data:image/jpeg;base64,").toList

/-- The `try`-block body of `CameraHandler._process_frame_to_base64`:
normalize, then either the fast path (orientation Normal: base64 of the
trimmed bytes unchanged) or the decode/rotate/re-encode slow path.
`.error` is an exception escaping the block into its `except` handler. -/
def processFrameBody (st : CamState) (oracle : SlowOracle) (file_data : List Nat) :
    Except CamErr (CamState × Option (List Char)) :=
  match trim_to_eoi file_data with
  | none =>
      .ok ({ st with
             io_error_counter := st.io_error_counter + 1,
             consecutive_corrupt_frames := st.consecutive_corrupt_frames + 1 }, none)
  | some normalized =>
      if normalized.isEmpty then
        -- `if not normalized` is also taken by empty bytes
        .ok ({ st with
               io_error_counter := st.io_error_counter + 1,
               consecutive_corrupt_frames := st.consecutive_corrupt_frames + 1 }, none)
      else if st.orientation = ORIENTATION_NORMAL then
        .ok ({ st with io_error_counter := 0, consecutive_corrupt_frames := 0 },
             some (dataUriHeader ++ b64Encode normalized))
      else
        match oracle.imdecode normalized with
        | .error e => .error e
        | .ok none =>
            .ok ({ st with
                   io_error_counter := st.io_error_counter + 1,
                   consecutive_corrupt_frames := st.consecutive_corrupt_frames + 1 }, none)
        | .ok (some img) =>
            match oracle.imencode (applyRotation st oracle img) with
            | .error e => .error e
            | .ok (false, _) => .ok (st, none)
            | .ok (true, buffer) =>
                .ok ({ st with io_error_counter := 0, consecutive_corrupt_frames := 0 },
                     some (dataUriHeader ++ b64Encode buffer))

/-- Embedding of `CameraHandler._process_frame_to_base64`: the body plus
its catch-all `except` handler, which classifies device-level errors
(`-52` before `-1`), tears the session down for those, and swallows
everything else. -/
def processFrameToBase64 (st : CamState) (oracle : SlowOracle) (file_data : List Nat) :
    CamState × Option (List Char) :=
  match processFrameBody st oracle file_data with
  | .ok r => r
  | .error e =>
      if errIsNotFound e then (release { st with lost_device := true }, none)
      else if errIsFatal e then (release { st with lost_device := true }, none)
      else (st, none)

/-- Embedding of `CameraHandler.get_frame_base64`: refuse when no camera
handle is present, capture with retry, drop falsy (`None`/empty) data,
process to a data-URI payload.  The third component counts the device
capture calls issued during the call. -/
def getFrameBase64 (st : CamState) (dev : DevTrace) (oracle : SlowOracle) :
    CamState × Option (List Char) × Nat :=
  if !st.camera then (st, none, 0)
  else
    match capturePreviewWithRetry st dev with
    | (st1, none, n) => (st1, none, n)
    | (st1, some fd, n) =>
        if fd.isEmpty then (st1, none, n)
        else ((processFrameToBase64 st1 oracle fd).1, (processFrameToBase64 st1 oracle fd).2, n)

/-- Embedding of `CameraHandler.connect`: both handle objects are
assigned before `camera.init` runs, so a failed `init` (modelled by
`ok = false`) still leaves non-`None` handles behind while setting
`lost_device`. -/
def connect (st : CamState) (ok : Bool) : CamState :=
  if ok then { st with context := true, camera := true, lost_device := false }
  else { st with context := true, camera := true, lost_device := true }

/-! ## Preview cache (`ImagePreviewManager`) -/

/-- `os.path.splitext(name)[0]` for a path-free file name: cut at the
last dot, unless every character before it is itself a dot. -/
def splitextBase (name : List Char) : List Char :=
  match lastSat (fun i => name.getD i ' ' == '.') name.length with
  | none => name
  | some i => if (name.take i).any (fun c => !(c == '.')) then name.take i else name

/-- `os.path.splitext(name)[1]` for a path-free file name. -/
def splitextExt (name : List Char) : List Char :=
  match lastSat (fun i => name.getD i ' ' == '.') name.length with
  | none => []
  | some i => if (name.take i).any (fun c => !(c == '.')) then name.drop i else []

/-- `os.path.basename` for `/`-separated paths. -/
def basenameOf (p : List Char) : List Char :=
  match lastSat (fun i => p.getD i ' ' == '/') p.length with
  | none => p
  | some i => p.drop (i + 1)

/-- `os.path.dirname` for `/`-separated paths. -/
def dirnameOf (p : List Char) : List Char :=
  match lastSat (fun i => p.getD i ' ' == '/') p.length with
  | none => []
  | some i => p.take i

/-- `os.path.join` for one directory and one file name. -/
def pathJoin (d f : List Char) : List Char :=
  d ++ '/' :: f

/-- Embedding of the `CachedImage` dataclass.  Timestamps are abstract
(`datetime.now().timestamp()` / `os.path.getmtime` values). -/
structure CachedImage where
  filepath : List Char
  filename : List Char
  timestamp : Nat
  is_raw : Bool
deriving DecidableEq

/-- The `ImagePreviewManager` fields driving cache behaviour:
the bounded entry list, the navigation cursor (`-1` = live view), and —
in place of the `_preview_callback` function attribute — whether a
callback is registered plus the ordered list of invocations it has
received (`events`). -/
structure PMState where
  download_dir : List Char
  max_cache_size : Nat
  cache : List CachedImage
  current_index : Int
  has_preview_callback : Bool
  events : List CachedImage
deriving DecidableEq

/-- `ImagePreviewManager.__init__` with an explicit download directory
(`max_cache_size` keeps its default of 50). -/
def initPMState (dir : List Char) : PMState :=
  { download_dir := dir, max_cache_size := 50, cache := [],
    current_index := -1, has_preview_callback := false, events := [] }

/-- The `while len(self._cache) > self.max_cache_size: self._cache.pop(0)`
eviction loop. -/
def trimCache (maxSize : Nat) : List CachedImage → List CachedImage
  | [] => []
  | x :: xs => if maxSize < (x :: xs).length then trimCache maxSize xs else x :: xs

/-- Invoke the preview callback if one is registered (appends to the
invocation record `events`). -/
def notifyPreview (st : PMState) (img : CachedImage) : PMState :=
  if st.has_preview_callback then { st with events := st.events ++ [img] } else st

/-- Embedding of `ImagePreviewManager._add_to_cache`: append, evict down
to the bound, point the cursor at the newest entry, notify. -/
def addToCache (st : PMState) (img : CachedImage) : PMState :=
  let c := trimCache st.max_cache_size (st.cache ++ [img])
  notifyPreview { st with cache := c, current_index := (c.length : Int) - 1 } img

/-- Embedding of `ImagePreviewManager._load_jpeg_to_cache` (used by
`cleanup_download_folder` for JPEGs already on disk at startup): a plain
append with cursor update — no eviction and no callback.  `mtime` is
`os.path.getmtime`; `none` models the exception path (file unreadable),
which caches nothing. -/
def loadJpegToCache (st : PMState) (filepath filename : List Char) (mtime : Option Nat) : PMState :=
  match mtime with
  | none => st
  | some t =>
      let c := st.cache ++ [⟨filepath, filename, t, false⟩]
      { st with cache := c, current_index := (c.length : Int) - 1 }

/-- Embedding of `ImagePreviewManager._replace_or_add_cached`: overwrite
the first entry with the same base name in place (cursor to it, notify),
else append with eviction (cursor to the appended entry, notify). -/
def replaceOrAddCached (st : PMState) (img : CachedImage) : PMState :=
  match st.cache.findIdx? (fun e => splitextBase e.filename == splitextBase img.filename) with
  | some idx =>
      notifyPreview { st with cache := st.cache.set idx img, current_index := (idx : Int) } img
  | none =>
      let c := trimCache st.max_cache_size (st.cache ++ [img])
      notifyPreview { st with cache := c, current_index := (c.length : Int) - 1 } img

/-- Embedding of `ImagePreviewManager.get_latest_preview`. -/
def getLatestPreview (st : PMState) : Option CachedImage × PMState :=
  if st.cache.isEmpty then (none, st)
  else
    let i := (st.cache.length : Int) - 1
    (pyGet st.cache i, { st with current_index := i })

/-- Embedding of `ImagePreviewManager.navigate_previous`: step the
cursor back, wrapping below 0 to the newest entry. -/
def navigatePrevious (st : PMState) : Option CachedImage × PMState :=
  if st.cache.isEmpty then (none, st)
  else
    let i1 := st.current_index - 1
    let i2 := if i1 < 0 then (st.cache.length : Int) - 1 else i1
    (pyGet st.cache i2, { st with current_index := i2 })

/-- Embedding of `ImagePreviewManager.navigate_next`: step the cursor
forward, wrapping past the end to the oldest entry. -/
def navigateNext (st : PMState) : Option CachedImage × PMState :=
  if st.cache.isEmpty then (none, st)
  else
    let i1 := st.current_index + 1
    let i2 := if (st.cache.length : Int) ≤ i1 then 0 else i1
    (pyGet st.cache i2, { st with current_index := i2 })

/-- Embedding of `ImagePreviewManager.reset_to_live_view`. -/
def resetToLiveView (st : PMState) : PMState :=
  { st with current_index := -1 }

/-- State component of `navigateNext` (for iterating navigation). -/
def navNextS (st : PMState) : PMState :=
  (navigateNext st).2

/-- State component of `navigatePrevious` (for iterating navigation). -/
def navPrevS (st : PMState) : PMState :=
  (navigatePrevious st).2

/-! ## Tethered file pairing (`ImagePreviewManager.process_downloaded_file`)

The pairing pipeline touches the download directory on disk, spawns
background threads (`_process_raw_file`) and timers (`_clear_pending_raw`
after `_pair_timeout` seconds).  We embed it as a transition system:
the file system is the set of existing paths, and each spawned thread or
timer is a queued `TetherTask` that an explicit scheduler step runs
(threads may run at any point after being spawned; the timer task runs
when the 2-second pairing timeout elapses). -/

/-- The `RAW_EXTENSIONS` set. -/
def RAW_EXTENSIONS : List (List Char) :=
  [(".arw").toList, (".nef").toList, (".cr2").toList, (".cr3").toList,
   (".rw2").toList, (".raf").toList, (".orf").toList, (".dng").toList,
   (".pef").toList, (".srw").toList]

/-- The `JPEG_EXTENSIONS` set.  (A Python `set`; `_find_jpeg_pair`
iterates it — we fix the order `.jpg`, `.jpeg`, immaterial for the
scenarios proved here, where at most one candidate exists.) -/
def JPEG_EXTENSIONS : List (List Char) :=
  [(".jpg").toList, (".jpeg").toList]

/-- A unit of background work spawned by the pairing pipeline. -/
inductive TetherTask where
  | processRaw (path : List Char)
  | timerClear (base : List Char)
deriving DecidableEq

/-- Provenance record for one cache insertion (instrumentation mirroring
the module's log lines): whether the inserted `CachedImage` came from
`_process_jpeg_file` or from `_process_raw_file` thumbnail extraction. -/
inductive CacheLog where
  | cachedFromJpeg (img : CachedImage)
  | cachedFromRaw (img : CachedImage)
deriving DecidableEq

/-- State of the pairing pipeline: the preview manager, the
`_pending_raw` map (base name to raw path and arrival time, in insertion
order), the set of files on disk, the queue of spawned-but-not-yet-run
tasks, and the provenance log. -/
structure TetherState where
  pm : PMState
  pending_raw : List (List Char × List Char × Nat)
  fs : List (List Char)
  tasks : List TetherTask
  log : List CacheLog
deriving DecidableEq

/-- Add a path to the file-system set. -/
def fsAdd (fs : List (List Char)) (p : List Char) : List (List Char) :=
  if fs.contains p then fs else fs ++ [p]

/-- Remove a path from the file-system set (`_safe_delete`: deletes when
present, does nothing otherwise). -/
def fsRemove (fs : List (List Char)) (p : List Char) : List (List Char) :=
  fs.filter (fun q => !(q == p))

/-- Look a base name up in the `_pending_raw` map. -/
def pendingLookup (l : List (List Char × List Char × Nat)) (base : List Char) :
    Option (List Char × Nat) :=
  (l.find? (fun e => e.1 == base)).map (fun e => e.2)

/-- Python dict assignment `self._pending_raw[base] = v`: overwrite in
place or append. -/
def pendingInsert (l : List (List Char × List Char × Nat)) (base : List Char)
    (v : List Char × Nat) : List (List Char × List Char × Nat) :=
  match l with
  | [] => [(base, v)]
  | e :: t => if e.1 == base then (base, v) :: t else e :: pendingInsert t base v

/-- `self._pending_raw.pop(base)`. -/
def pendingRemove (l : List (List Char × List Char × Nat)) (base : List Char) :
    List (List Char × List Char × Nat) :=
  l.filter (fun e => !(e.1 == base))

/-- Embedding of `ImagePreviewManager._process_jpeg_file`: re-save the
image under `<download_dir>/<base>.jpg` (EXIF auto-rotation changes
pixels, not the recorded name), cache it with replace-by-basename, and
record provenance.  A missing source file raises inside the `try` and
caches nothing. -/
def processJpegFileM (st : TetherState) (path : List Char) : TetherState :=
  if !(st.fs.contains path) then st
  else
    let base := splitextBase (basenameOf path)
    let jpegFilename := base ++ (".jpg").toList
    let jpegPath := pathJoin st.pm.download_dir jpegFilename
    let img : CachedImage := ⟨jpegPath, jpegFilename, 0, false⟩
    { st with
      fs := fsAdd st.fs jpegPath,
      pm := replaceOrAddCached st.pm img,
      log := st.log ++ [.cachedFromJpeg img] }

/-- Embedding of `ImagePreviewManager._process_raw_file`: extract the
embedded thumbnail (`extract` is the rawpy/manual-scan capability:
`true` iff a usable thumbnail is found), save it as
`<download_dir>/<base>.jpg`, cache with replace-by-basename, then delete
the RAW file.  A missing file raises and does nothing; a missing
thumbnail returns early. -/
def processRawFileM (extract : List Char → Bool) (st : TetherState) (path : List Char) :
    TetherState :=
  if !(st.fs.contains path) then st
  else if !(extract path) then st
  else
    let base := splitextBase (basenameOf path)
    let jpegFilename := base ++ (".jpg").toList
    let jpegPath := pathJoin st.pm.download_dir jpegFilename
    let img : CachedImage := ⟨jpegPath, jpegFilename, 0, false⟩
    { st with
      fs := fsRemove (fsAdd st.fs jpegPath) path,
      pm := replaceOrAddCached st.pm img,
      log := st.log ++ [.cachedFromRaw img] }

/-- Embedding of `ImagePreviewManager._find_jpeg_pair`: first existing
sibling among `<dir>/<base><ext>` with each JPEG extension in lower and
upper case. -/
def findJpegPair (fs : List (List Char)) (rawPath : List Char) : Option (List Char) :=
  let base := splitextBase (basenameOf rawPath)
  let dir := dirnameOf rawPath
  (JPEG_EXTENSIONS.flatMap (fun ext => [pathJoin dir (base ++ ext),
       pathJoin dir (base ++ toLowerStr ext |>.map Char.toUpper)])).find?
    (fun p => fs.contains p)

/-- Embedding of `ImagePreviewManager._clear_pending_raw` (the body of
the pairing-timeout timer): drop the pending entry if still present and,
when the RAW file still exists, spawn a processing thread for it. -/
def clearPendingRaw (st : TetherState) (base : List Char) : TetherState :=
  match pendingLookup st.pending_raw base with
  | none => st
  | some (rawPath, _) =>
      let st1 := { st with pending_raw := pendingRemove st.pending_raw base }
      if st1.fs.contains rawPath then { st1 with tasks := st1.tasks ++ [.processRaw rawPath] }
      else st1

/-- Embedding of `ImagePreviewManager.process_downloaded_file`.  The
`capt_` prefix strip renames the file on disk; a RAW file with a sibling
JPEG on disk is dropped in favour of that JPEG; a RAW without one is
recorded as pending, a processing thread is spawned *immediately* and a
pairing-timeout timer is scheduled; a JPEG consumes a pending RAW entry
(deleting the RAW) or is processed standalone.  (`filetype` is unused by
the source beyond logging; classification is by extension.) -/
def processDownloadedFile (st : TetherState) (filepath0 : List Char) : TetherState :=
  if !(st.fs.contains filepath0) then st
  else
    let filename0 := basenameOf filepath0
    let stripped := isPrefixOfB ("capt_").toList (toLowerStr filename0)
    let filename := if stripped then filename0.drop 5 else filename0
    let filepath := if stripped then pathJoin (dirnameOf filepath0) filename else filepath0
    let st := if stripped then { st with fs := fsAdd (fsRemove st.fs filepath0) filepath } else st
    let base := splitextBase filename
    let ext := toLowerStr (splitextExt filename)
    if RAW_EXTENSIONS.contains ext then
      match findJpegPair st.fs filepath with
      | some jpegPath =>
          let st1 := processJpegFileM st jpegPath
          { st1 with fs := fsRemove st1.fs filepath }
      | none =>
          { st with
            pending_raw := pendingInsert st.pending_raw base (filepath, 0),
            tasks := st.tasks ++ [.processRaw filepath, .timerClear base] }
    else
      match pendingLookup st.pending_raw base with
      | some (rawPath, _) =>
          let st1 := processJpegFileM { st with
            pending_raw := pendingRemove st.pending_raw base } filepath
          { st1 with fs := fsRemove st1.fs rawPath }
      | none => processJpegFileM st filepath

/-- Scheduler step: run (and dequeue) the `i`-th queued background task.
Thread tasks may be run at any point after being spawned; a `timerClear`
task runs when the pairing timeout elapses. -/
def runTask (extract : List Char → Bool) (st : TetherState) (i : Nat) : TetherState :=
  match st.tasks.get? i with
  | none => st
  | some t =>
      let st1 := { st with tasks := st.tasks.eraseIdx i }
      match t with
      | .processRaw p => processRawFileM extract st1 p
      | .timerClear b => clearPendingRaw st1 b

/-- Number of cache entries whose base name is `base`. -/
def countBase (cache : List CachedImage) (base : List Char) : Nat :=
  cache.countP (fun e => splitextBase e.filename == base)

/-! ## Concrete scenario inputs -/

/-- A transient busy exception as gphoto2 renders it. -/
def busyErr : CamErr :=
  ⟨("-110: I/O in progress").toList, some (-110)⟩

/-- Device behaviour: every capture attempt raises the busy error. -/
def busyDev : DevTrace :=
  fun _ => .error busyErr

/-- Device behaviour: every capture attempt returns a minimal JPEG. -/
def okDev : DevTrace :=
  fun _ => .ok [0xff, 0xd8, 0xff, 0xd9]

/-- A concrete cv2 behaviour (never consulted on the fast path). -/
def trivOracle : SlowOracle :=
  ⟨fun _ => .ok none, fun _ img => img, fun _ => .ok (true, [])⟩

/-- The handler state right after a successful `connect()`. -/
def connectedCam : CamState :=
  { initCamState with camera := true, context := true }

/-- The handler state after two all-busy `get_frame_base64()` calls from
a fresh connection: six transient failures have accumulated, so the
second retry exhaustion crosses the threshold and marks the device lost
— without releasing the camera handle. -/
def lostBusyCam : CamState :=
  (getFrameBase64 (getFrameBase64 connectedCam busyDev trivOracle).1 busyDev trivOracle).1

/-- Classification of one device response as a transient busy failure. -/
def isBusyResp (r : Except CamErr (List Nat)) : Bool :=
  match r with
  | .error e => errIsBusy e
  | .ok _ => false

/-- Embedding of `ImagePreviewManager.set_preview_callback` (a callback
becomes registered). -/
def setPreviewCallback (st : PMState) : PMState :=
  { st with has_preview_callback := true }

/-- A first cached JPEG. -/
def imgA : CachedImage := ⟨("dl/a.jpg").toList, ("a.jpg").toList, 0, false⟩

/-- A second cached JPEG with a different base name. -/
def imgB : CachedImage := ⟨("dl/b.jpg").toList, ("b.jpg").toList, 0, false⟩

/-- A re-processed image with the same base name as `imgA`. -/
def imgA2 : CachedImage := ⟨("dl/a.jpg").toList, ("a.jpg").toList, 1, false⟩

/-- A manager (bound 1 for concreteness) whose cache is exactly full. -/
def fullPM : PMState :=
  addToCache { initPMState ("dl").toList with max_cache_size := 1 } imgA

/-- The manager state after `cleanup_download_folder` loads 51 existing
JPEGs from the download folder at startup (bound still the default 50). -/
def overfullStartupPM : PMState :=
  (List.range 51).foldl
    (fun s _ => loadJpegToCache s ("dl/x.jpg").toList ("x.jpg").toList (some 0))
    (initPMState ("dl").toList)

/-- One cached image with the cursor on it. -/
def onePM : PMState :=
  addToCache (initPMState ("dl").toList) imgA

/-- One cached image, cursor reset to live view (−1). -/
def liveViewPM : PMState :=
  resetToLiveView onePM

/-- One cached image, with a preview callback registered. -/
def cbPM : PMState :=
  setPreviewCallback onePM

/-- The download directory used in the pairing scenarios. -/
def dlDir : List Char := ("dl").toList

/-- A tethered RAW file as downloaded. -/
def rawPath1 : List Char := ("dl/DSC1.ARW").toList

/-- Its sibling JPEG as downloaded. -/
def jpgPath1 : List Char := ("dl/DSC1.JPG").toList

/-- The normalized JPEG the pipeline persists for this capture. -/
def savedJpg1 : List Char := ("dl/DSC1.jpg").toList

/-- The shared base name of the capture. -/
def base1 : List Char := ("DSC1").toList

/-- The cache entry both processing paths produce for this capture. -/
def imgD : CachedImage := ⟨savedJpg1, ("DSC1.jpg").toList, 0, false⟩

/-- Thumbnail extraction capability that always finds a thumbnail. -/
def alwaysExtract : List Char → Bool := fun _ => true

/-- Pairing-pipeline start state: an arbitrary preview-manager history
(`cache0`, cursor, callback flag, event record) and just the RAW file on
disk. -/
def tetherStart (cache0 : List CachedImage) (idx : Int) (cb : Bool)
    (ev : List CachedImage) : TetherState :=
  { pm := { initPMState dlDir with
      cache := cache0, current_index := idx, has_preview_callback := cb, events := ev },
    pending_raw := [], fs := [rawPath1], tasks := [], log := [] }

/-- After the RAW notice is handled (pending entry recorded, extraction
thread and pairing timer spawned). -/
def c7After1 (cache0 : List CachedImage) (idx : Int) (cb : Bool)
    (ev : List CachedImage) : TetherState :=
  processDownloadedFile (tetherStart cache0 idx cb ev) rawPath1

/-- After the spawned extraction thread has run (the pairing timer has
not yet fired). -/
def c7After2 (cache0 : List CachedImage) (idx : Int) (cb : Bool)
    (ev : List CachedImage) : TetherState :=
  runTask alwaysExtract (c7After1 cache0 idx cb ev) 0

/-- After the pairing timer has then fired. -/
def c7After3 (cache0 : List CachedImage) (idx : Int) (cb : Bool)
    (ev : List CachedImage) : TetherState :=
  runTask alwaysExtract (c7After2 cache0 idx cb ev) 0

/-- Pairing schedule B: the sibling JPEG is downloaded and noticed
before the extraction thread gets to run. -/
def c8bJpeg (cache0 : List CachedImage) (idx : Int) (cb : Bool)
    (ev : List CachedImage) : TetherState :=
  processDownloadedFile
    { c7After1 cache0 idx cb ev with
      fs := fsAdd (c7After1 cache0 idx cb ev).fs jpgPath1 } jpgPath1

/-- Schedule B, after the (now stale) extraction thread runs. -/
def c8bRaw (cache0 : List CachedImage) (idx : Int) (cb : Bool)
    (ev : List CachedImage) : TetherState :=
  runTask alwaysExtract (c8bJpeg cache0 idx cb ev) 0

/-- Schedule B, after the pairing timer fires. -/
def c8bTimer (cache0 : List CachedImage) (idx : Int) (cb : Bool)
    (ev : List CachedImage) : TetherState :=
  runTask alwaysExtract (c8bRaw cache0 idx cb ev) 0

/-- Pairing schedule A: the extraction thread ran first (state
`c7After2`), then the sibling JPEG is downloaded and noticed. -/
def c8aJpeg (cache0 : List CachedImage) (idx : Int) (cb : Bool)
    (ev : List CachedImage) : TetherState :=
  processDownloadedFile
    { c7After2 cache0 idx cb ev with
      fs := fsAdd (c7After2 cache0 idx cb ev).fs jpgPath1 } jpgPath1

/-- Schedule A, after the pairing timer fires. -/
def c8aTimer (cache0 : List CachedImage) (idx : Int) (cb : Bool)
    (ev : List CachedImage) : TetherState :=
  runTask alwaysExtract (c8aJpeg cache0 idx cb ev) 0

/-- The preview-manager record after the extraction-path insert into an
arbitrary prior cache (the callback conditional folded into the
`events` field). -/
def pmAfterExtract (cache0 : List CachedImage) (cb : Bool) (ev : List CachedImage) : PMState :=
  { download_dir := dlDir, max_cache_size := 50, cache := cache0 ++ [imgD],
    current_index := ((cache0 ++ [imgD]).length : Int) - 1,
    has_preview_callback := cb, events := if cb then ev ++ [imgD] else ev }

/-! ## Helper lemmas -/

theorem lastSat_eq_none {p : Nat → Bool} {n : Nat} :
    lastSat p n = none ↔ ∀ i, i < n → p i = false := by
  induction n with
  | zero => simp [lastSat]
  | succ m ih =>
      simp only [lastSat]
      by_cases h : p m
      · simp only [h, if_true]
        constructor
        · intro hc; cases hc
        · intro hall
          have hm := hall m (Nat.lt_succ_self m)
          rw [h] at hm; cases hm
      · rw [if_neg (by simp [h]), ih]
        constructor
        · intro hall i hi
          rcases Nat.lt_succ_iff_lt_or_eq.mp hi with h1 | h1
          · exact hall i h1
          · subst h1; exact Bool.eq_false_iff.mpr h
        · intro hall i hi; exact hall i (Nat.lt_succ_of_lt hi)

theorem lastSat_eq_some {p : Nat → Bool} {n i : Nat} (h : lastSat p n = some i) :
    p i = true ∧ i < n ∧ ∀ j, i < j → j < n → p j = false := by
  induction n with
  | zero => cases h
  | succ m ih =>
      simp only [lastSat] at h
      by_cases hp : p m
      · rw [if_pos hp] at h
        injection h with h2
        subst h2
        exact ⟨hp, Nat.lt_succ_self _, fun j hj1 hj2 => absurd hj2 (by omega)⟩
      · rw [if_neg (by simp [hp])] at h
        obtain ⟨h1, h2, h3⟩ := ih h
        refine ⟨h1, Nat.lt_succ_of_lt h2, fun j hj1 hj2 => ?_⟩
        rcases Nat.lt_succ_iff_lt_or_eq.mp hj2 with hj | hj
        · exact h3 j hj1 hj
        · subst hj; exact Bool.eq_false_iff.mpr hp

theorem lastSat_of_last {p : Nat → Bool} {n i : Nat} (hi : i < n) (hp : p i = true)
    (hlast : ∀ j, i < j → j < n → p j = false) : lastSat p n = some i := by
  induction n with
  | zero => cases hi
  | succ m ih =>
      simp only [lastSat]
      rcases Nat.lt_succ_iff_lt_or_eq.mp hi with h | h
      · have hm : p m = false := hlast m h (Nat.lt_succ_self m)
        rw [if_neg (by simp [hm])]
        exact ih h (fun j hj1 hj2 => hlast j hj1 (Nat.lt_succ_of_lt hj2))
      · subst h; simp [hp]

/-! ## C1: the Frame Normalizer -/

theorem isEOIAt_lt_length {b : List Nat} {i : Nat} (h : isEOIAt b i = true) :
    i + 1 < b.length := by
  by_contra hc
  have hd : b.getD (i + 1) 0 = 0 := List.getD_eq_default _ _ (by omega)
  rw [isEOIAt, hd] at h
  simp at h

theorem isEOIAt_false_of_length_le {b : List Nat} {i : Nat} (h : b.length ≤ i + 1) :
    isEOIAt b i = false := by
  have hd : b.getD (i + 1) 0 = 0 := List.getD_eq_default _ _ h
  rw [isEOIAt, hd]
  simp

/-- C1: `_trim_to_eoi` fails exactly when the buffer is shorter than 4
bytes, lacks the SOI marker `FF D8` at offset 0, or contains no EOI
marker `FF D9` starting at or after offset 2; otherwise it returns
exactly the prefix `b[0 .. i+2)` where `i` is the index of the last
occurrence of `FF D9` in `b`. -/
theorem trim_to_eoi_spec (b : List Nat) :
    (trim_to_eoi b = none ↔
      (b.length < 4 ∨ b.take 2 ≠ [0xff, 0xd8] ∨ ∀ i, 2 ≤ i → isEOIAt b i = false))
    ∧ (∀ i, isEOIAt b i = true → (∀ j, i < j → isEOIAt b j = false) →
        ¬ (b.length < 4 ∨ b.take 2 ≠ [0xff, 0xd8] ∨ ∀ i, 2 ≤ i → isEOIAt b i = false) →
        trim_to_eoi b = some (b.take (i + 2))) := by
  constructor
  · rcases Nat.lt_or_ge b.length 4 with h4 | h4
    · simp [trim_to_eoi, h4]
    · have h4' : ¬ b.length < 4 := by omega
      by_cases hsoi : b.take 2 = [0xff, 0xd8]
      · cases heoi : lastEOI b with
        | none =>
            have hall : ∀ i, i < b.length → isEOIAt b i = false := by
              rw [lastEOI, lastSat_eq_none] at heoi; exact heoi
            simp only [trim_to_eoi, h4', if_false, hsoi, beq_self_eq_true, Bool.not_true,
              Bool.false_eq_true, heoi, ne_eq, not_true_eq_false, false_or]
            constructor
            · intro _ i _
              rcases Nat.lt_or_ge i b.length with hiln | hiln
              · exact hall i hiln
              · exact isEOIAt_false_of_length_le (by omega)
            · intro _; trivial
        | some j =>
            have heoi' := heoi
            rw [lastEOI] at heoi'
            obtain ⟨hj1, hj2, hj3⟩ := lastSat_eq_some heoi'
            simp only [trim_to_eoi, h4', if_false, hsoi, beq_self_eq_true, Bool.not_true,
              Bool.false_eq_true, heoi, ne_eq, not_true_eq_false, false_or]
            by_cases hj2' : j < 2
            · simp only [hj2', if_true]
              constructor
              · intro _ i _
                rcases Nat.lt_or_ge i b.length with hiln | hiln
                · exact hj3 i (by omega) hiln
                · exact isEOIAt_false_of_length_le (by omega)
              · intro _; trivial
            · simp only [hj2', if_false]
              constructor
              · intro hc; cases hc
              · intro hall
                have := hall j (by omega)
                rw [hj1] at this; cases this
      · simp [trim_to_eoi, h4', hsoi]
  · intro i hEOI hlast hfail
    push_neg at hfail
    obtain ⟨h4, hsoi, j, hj2, hjEOI⟩ := hfail
    rw [ne_eq, Bool.not_eq_false] at hjEOI
    have hji : j ≤ i := by
      by_contra hc
      have := hlast j (by omega)
      rw [hjEOI] at this; cases this
    have hi2 : ¬ i < 2 := by omega
    have h4' : ¬ b.length < 4 := by omega
    have hlastEOI : lastEOI b = some i := by
      rw [lastEOI]
      exact lastSat_of_last (by have := isEOIAt_lt_length hEOI; omega) hEOI
        (fun k hk1 _ => hlast k hk1)
    simp only [trim_to_eoi, h4', if_false, hsoi, beq_self_eq_true, Bool.not_true,
      Bool.false_eq_true, hlastEOI, hi2]

/-- Witness for C1: a valid SOI…EOI buffer with two EOI markers and a
trailing byte is trimmed to just past its last EOI marker (index 5). -/
theorem trim_to_eoi_spec_witness :
    trim_to_eoi [0xff, 0xd8, 0xff, 0xd9, 0x00, 0xff, 0xd9, 0x07] =
      some [0xff, 0xd8, 0xff, 0xd9, 0x00, 0xff, 0xd9] := by
  have h := (trim_to_eoi_spec [0xff, 0xd8, 0xff, 0xd9, 0x00, 0xff, 0xd9, 0x07]).2 5
    (by decide)
    (by
      intro j hj
      rcases Nat.lt_or_ge j 8 with h8 | h8
      · interval_cases j <;> decide
      · exact isEOIAt_false_of_length_le (by simp; omega))
    (by
      push_neg
      refine ⟨by decide, by decide, 5, by decide, by decide⟩)
  exact h

/-! ## Base64 round trip -/

theorem b64Char_spec : ∀ s, s < 64 → b64Value (b64Char s) = s ∧ ¬ b64Char s = '=' := by
  decide

theorem b64_roundtrip (bs : List Nat) (h : ∀ x ∈ bs, x < 256) :
    b64Decode (b64Encode bs) = bs := by
  suffices H : ∀ n (bs : List Nat), bs.length ≤ n → (∀ x ∈ bs, x < 256) →
      b64Decode (b64Encode bs) = bs from H bs.length bs le_rfl h
  intro n
  induction n with
  | zero =>
      intro bs hl _
      have hbs : bs = [] := List.eq_nil_of_length_eq_zero (by omega)
      subst hbs; rfl
  | succ n ih =>
      intro bs hl hb
      match bs with
      | [] => rfl
      | [a] =>
          have ha : a < 256 := hb a (by simp)
          obtain ⟨v1, ne1⟩ := b64Char_spec (a / 4) (by omega)
          obtain ⟨v2, ne2⟩ := b64Char_spec ((a % 4) * 16) (by omega)
          simp only [b64Encode, b64Decode, if_pos rfl, if_true, v1, v2]
          have : (a / 4) * 4 + ((a % 4) * 16) / 16 = a := by omega
          rw [this]
      | [a, b] =>
          have ha : a < 256 := hb a (by simp)
          have hbb : b < 256 := hb b (by simp)
          obtain ⟨v1, ne1⟩ := b64Char_spec (a / 4) (by omega)
          obtain ⟨v2, ne2⟩ := b64Char_spec ((a % 4) * 16 + b / 16) (by omega)
          obtain ⟨v3, ne3⟩ := b64Char_spec ((b % 16) * 4) (by omega)
          simp only [b64Encode, b64Decode, if_neg ne3, if_pos rfl, if_true, v1, v2, v3]
          have e1 : (a / 4) * 4 + ((a % 4) * 16 + b / 16) / 16 = a := by omega
          have e2 : (((a % 4) * 16 + b / 16) % 16) * 16 + ((b % 16) * 4) / 4 = b := by omega
          rw [e1, e2]
      | a :: b :: c :: rest =>
          have ha : a < 256 := hb a (by simp)
          have hbb : b < 256 := hb b (by simp)
          have hc : c < 256 := hb c (by simp)
          obtain ⟨v1, ne1⟩ := b64Char_spec (a / 4) (by omega)
          obtain ⟨v2, ne2⟩ := b64Char_spec ((a % 4) * 16 + b / 16) (by omega)
          obtain ⟨v3, ne3⟩ := b64Char_spec ((b % 16) * 4 + c / 64) (by omega)
          obtain ⟨v4, ne4⟩ := b64Char_spec (c % 64) (by omega)
          have hrest : b64Decode (b64Encode rest) = rest := by
            refine ih rest (by simp at hl; omega) (fun x hx => hb x (by simp [hx]))
          simp only [b64Encode, b64Decode, if_neg ne3, if_neg ne4, v1, v2, v3, v4, hrest]
          have e1 : (a / 4) * 4 + ((a % 4) * 16 + b / 16) / 16 = a := by omega
          have e2 : (((a % 4) * 16 + b / 16) % 16) * 16 + ((b % 16) * 4 + c / 64) / 4 = b := by
            omega
          have e3 : (((b % 16) * 4 + c / 64) % 4) * 64 + c % 64 = c := by omega
          rw [e1, e2, e3]

/-! ## C10: `release` resets the session -/

/-- C10: after `release()` the session state is fully reset (`camera`
and `context` dropped, streaming off, `lost_device` false, orientation
Normal, transient I/O counter zero); and a session-loss teardown in
`_handle_capture_error` (a non-busy error classified `-52` or `-1`)
itself calls `release`, so immediately afterwards `lost_device` reads
false and the camera handle is gone. -/
theorem release_resets_session (st : CamState) (e : CamErr) :
    ((release st).camera = false ∧ (release st).context = false ∧
     (release st).is_streaming = false ∧ (release st).lost_device = false ∧
     (release st).orientation = ORIENTATION_NORMAL ∧ (release st).io_error_counter = 0)
    ∧ (errIsBusy e = false → (errIsNotFound e = true ∨ errIsFatal e = true) →
        (handleCaptureError st e).1.lost_device = false ∧
        (handleCaptureError st e).1.camera = false ∧
        (handleCaptureError st e).2 = false) := by
  refine ⟨⟨rfl, rfl, rfl, rfl, rfl, rfl⟩, ?_⟩
  intro hb hnf
  rw [handleCaptureError]
  simp only [hb, Bool.false_eq_true, if_false]
  rcases hnf with hh | hh
  · simp [hh, release]
  · by_cases h2 : errIsNotFound e <;> simp [hh, h2, release]

/-- Witness for C10: the `-52` USB-disconnect error on a connected
session. -/
theorem release_resets_session_witness :
    (handleCaptureError connectedCam ⟨("-52: Could not find the requested device").toList,
        some (-52)⟩).1.lost_device = false ∧
    (handleCaptureError connectedCam ⟨("-52: Could not find the requested device").toList,
        some (-52)⟩).1.camera = false ∧
    (handleCaptureError connectedCam ⟨("-52: Could not find the requested device").toList,
        some (-52)⟩).2 = false :=
  (release_resets_session connectedCam _).2 (by decide) (Or.inl (by decide))

/-! ## C6: the Normal-orientation fast path -/

theorem trim_to_eoi_shape {fd nb : List Nat} (h : trim_to_eoi fd = some nb) :
    ∃ i, ¬ i < 2 ∧ nb = fd.take (i + 2) ∧ ¬ fd.length < 4 := by
  rw [trim_to_eoi] at h
  split at h
  · cases h
  · split at h
    · cases h
    · split at h
      · cases h
      · split at h
        · cases h
        · injection h with h2
          exact ⟨_, by assumption, h2.symm, by assumption⟩

theorem trim_to_eoi_ne_nil {fd nb : List Nat} (h : trim_to_eoi fd = some nb) :
    nb.isEmpty = false := by
  obtain ⟨i, _, hnb, hlen⟩ := trim_to_eoi_shape h
  subst hnb
  rw [List.isEmpty_eq_false_iff_exists_mem]
  have hlt : (fd.take (i + 2)).length = min (i + 2) fd.length := List.length_take _ _
  exact List.exists_mem_of_length_pos (by omega)

/-- C6: with orientation Normal, a frame that passes normalization skips
the decode/rotate/re-encode stage: the returned payload is the data-URI
base64 encoding of exactly the normalized bytes (for any codec
behaviour), and decoding that base64 payload recovers the normalizer's
output byte-for-byte. -/
theorem normal_orientation_fast_path (st : CamState) (oracle : SlowOracle)
    (fd nb : List Nat) (ho : st.orientation = ORIENTATION_NORMAL)
    (ht : trim_to_eoi fd = some nb) (h256 : ∀ x ∈ fd, x < 256) :
    processFrameToBase64 st oracle fd =
      ({ st with io_error_counter := 0, consecutive_corrupt_frames := 0 },
       some (dataUriHeader ++ b64Encode nb))
    ∧ b64Decode (b64Encode nb) = nb := by
  have hne := trim_to_eoi_ne_nil ht
  constructor
  · rw [processFrameToBase64, processFrameBody, ht]
    simp only [hne, Bool.false_eq_true, if_false, ho, if_pos rfl, if_true]
  · refine b64_roundtrip nb (fun x hx => h256 x ?_)
    obtain ⟨i, _, hnb, _⟩ := trim_to_eoi_shape ht
    subst hnb
    exact List.take_subset _ _ hx

/-- Witness for C6: a four-byte JPEG with two bytes of trailing padding
is trimmed and passed through the fast path unchanged. -/
theorem normal_orientation_fast_path_witness :
    processFrameToBase64 connectedCam trivOracle [0xff, 0xd8, 0xff, 0xd9, 0x00, 0x00] =
      ({ connectedCam with io_error_counter := 0, consecutive_corrupt_frames := 0 },
       some (dataUriHeader ++ b64Encode [0xff, 0xd8, 0xff, 0xd9]))
    ∧ b64Decode (b64Encode [0xff, 0xd8, 0xff, 0xd9]) = [0xff, 0xd8, 0xff, 0xd9] :=
  normal_orientation_fast_path connectedCam trivOracle _ _ (by decide) (by decide) (by decide)

/-! ## C9: error containment in `get_frame_base64` -/

theorem processFrameBody_cases (st : CamState) (oracle : SlowOracle) (fd : List Nat) :
    (∃ e, processFrameBody st oracle fd = .error e) ∨
    (∃ st1, processFrameBody st oracle fd = .ok (st1, none)) ∨
    (∃ st1 buf, processFrameBody st oracle fd = .ok (st1, some (dataUriHeader ++ b64Encode buf))) := by
  rw [processFrameBody]
  repeat' split
  all_goals first
    | exact Or.inl ⟨_, rfl⟩
    | exact Or.inr (Or.inl ⟨_, rfl⟩)
    | exact Or.inr (Or.inr ⟨_, _, rfl⟩)

theorem processFrameToBase64_cases (st : CamState) (oracle : SlowOracle) (fd : List Nat) :
    (processFrameToBase64 st oracle fd).2 = none ∨
    (∃ buf, (processFrameToBase64 st oracle fd).2 = some (dataUriHeader ++ b64Encode buf)) := by
  rcases processFrameBody_cases st oracle fd with ⟨e, he⟩ | ⟨st1, he⟩ | ⟨st1, buf, he⟩
  · simp only [processFrameToBase64, he]
    repeat' split
    all_goals first | trivial | exact Or.inl rfl
  · simp only [processFrameToBase64, he]
    exact Or.inl trivial
  · simp only [processFrameToBase64, he]
    first
    | trivial
    | exact Or.inr ⟨buf, rfl⟩

/-- C9: for every device behaviour (any sequence of returned buffers or
raised driver errors) and every codec behaviour, `get_frame_base64`
resolves all errors internally: its result is either `None` or a
base64-encoded frame payload — never a propagated exception or raw
error object. -/
theorem get_frame_never_raises (st : CamState) (dev : DevTrace) (oracle : SlowOracle) :
    (getFrameBase64 st dev oracle).2.1 = none ∨
    (∃ buf, (getFrameBase64 st dev oracle).2.1 = some (dataUriHeader ++ b64Encode buf)) := by
  rw [getFrameBase64]
  split
  · exact Or.inl rfl
  · split
    · exact Or.inl rfl
    · split
      · exact Or.inl rfl
      · exact processFrameToBase64_cases _ oracle _

/-! ## C3: the lost-device invariant -/

/-- C3 counterexample: from a fresh connection, two all-busy ticks drive
the transient counter to six and mark the device lost — but the camera
handle is still present, and the very next `get_frame_base64()` call
issues a device capture (one driver call) and even returns a frame,
violating the claimed "no capture while `lost_device`" invariant. -/
theorem get_frame_while_lost_counterexample :
    lostBusyCam.lost_device = true ∧ lostBusyCam.camera = true ∧
    (getFrameBase64 lostBusyCam okDev trivOracle).2.2 = 1 ∧
    (getFrameBase64 lostBusyCam okDev trivOracle).2.1 =
      some (dataUriHeader ++ b64Encode [0xff, 0xd8, 0xff, 0xd9]) := by
  refine ⟨rfl, rfl, rfl, rfl⟩

/-- C3 (amended): exhausting the retry schedule on transient-busy
failures adds three to the transient counter and marks the session lost
exactly when the counter has reached the threshold — but the only guard
in `get_frame_base64` is the camera handle: capture is suppressed (zero
device calls) when `camera` is `None`, not when `lost_device` is set. -/
theorem busy_threshold_marks_lost (st : CamState) (dev : DevTrace) (oracle : SlowOracle) :
    (isBusyResp (dev 0) = true → isBusyResp (dev 1) = true → isBusyResp (dev 2) = true →
      capturePreviewWithRetry st dev =
        ({ st with
            io_error_counter := st.io_error_counter + 3,
            lost_device :=
              if ioErrorThreshold ≤ st.io_error_counter + 3 then true else st.lost_device },
         none, 3))
    ∧ (st.camera = false → getFrameBase64 st dev oracle = (st, none, 0)) := by
  constructor
  · intro h0 h1 h2
    rw [capturePreviewWithRetry, retryDelays]
    rcases hdev0 : dev 0 with e0 | fd0
    case ok => rw [hdev0] at h0; simp [isBusyResp] at h0
    rw [hdev0] at h0
    simp only [isBusyResp] at h0
    rcases hdev1 : dev 1 with e1 | fd1
    case ok => rw [hdev1] at h1; simp [isBusyResp] at h1
    rw [hdev1] at h1
    simp only [isBusyResp] at h1
    rcases hdev2 : dev 2 with e2 | fd2
    case ok => rw [hdev2] at h2; simp [isBusyResp] at h2
    rw [hdev2] at h2
    simp only [isBusyResp] at h2
    simp only [captureGo, hdev0, hdev1, hdev2, handleCaptureError, h0, h1, h2, if_true]
    by_cases hth : ioErrorThreshold ≤ st.io_error_counter + 3
    · simp only [show st.io_error_counter + 1 + 1 + 1 = st.io_error_counter + 3 from by omega,
        hth, if_true]
    · simp only [show st.io_error_counter + 1 + 1 + 1 = st.io_error_counter + 3 from by omega,
        hth, if_false]
  · intro hcam
    rw [getFrameBase64]
    simp [hcam]

/-- Witness for C3 (amended): a connected state with two prior transient
failures crosses the threshold on an all-busy tick, and a handler with
no camera handle issues no capture. -/
theorem busy_threshold_marks_lost_witness :
    capturePreviewWithRetry { connectedCam with io_error_counter := 2 } busyDev =
      ({ connectedCam with io_error_counter := 5, lost_device := true }, none, 3) ∧
    getFrameBase64 initCamState busyDev trivOracle = (initCamState, none, 0) := by
  constructor
  · have h := (busy_threshold_marks_lost { connectedCam with io_error_counter := 2 }
      busyDev trivOracle).1 (by decide) (by decide) (by decide)
    rw [h]
    decide
  · exact (busy_threshold_marks_lost initCamState busyDev trivOracle).2 rfl

/-! ## C2: the cache bound -/

theorem trimCache_eq_drop (maxSize : Nat) (l : List CachedImage) :
    trimCache maxSize l = l.drop (l.length - maxSize) := by
  induction l with
  | nil => simp [trimCache]
  | cons x xs ih =>
      rw [trimCache]
      by_cases h : maxSize < (x :: xs).length
      · rw [if_pos h, ih]
        have hx : (x :: xs).length - maxSize = (xs.length - maxSize) + 1 := by
          simp only [List.length_cons] at h ⊢; omega
        rw [hx, List.drop_succ_cons]
      · rw [if_neg h]
        have hx : (x :: xs).length - maxSize = 0 := by
          simp only [List.length_cons] at h ⊢; omega
        rw [hx, List.drop_zero]

theorem trimCache_length (maxSize : Nat) (l : List CachedImage) :
    (trimCache maxSize l).length = min l.length maxSize := by
  rw [trimCache_eq_drop, List.length_drop]
  omega

theorem notifyPreview_cache (st : PMState) (img : CachedImage) :
    (notifyPreview st img).cache = st.cache ∧
    (notifyPreview st img).current_index = st.current_index ∧
    (notifyPreview st img).max_cache_size = st.max_cache_size := by
  rw [notifyPreview]; split <;> exact ⟨rfl, rfl, rfl⟩

theorem notifyPreview_events (st : PMState) (img : CachedImage)
    (h : st.has_preview_callback = true) :
    (notifyPreview st img).events = st.events ++ [img] := by
  rw [notifyPreview, if_pos h]

theorem addToCache_cache (st : PMState) (img : CachedImage) :
    (addToCache st img).cache = trimCache st.max_cache_size (st.cache ++ [img]) := by
  rw [addToCache]
  exact (notifyPreview_cache _ _).1

theorem replaceOrAdd_found (st : PMState) (img : CachedImage) (idx : Nat)
    (h : st.cache.findIdx? (fun e => splitextBase e.filename == splitextBase img.filename) =
      some idx) :
    replaceOrAddCached st img =
      notifyPreview { st with cache := st.cache.set idx img, current_index := (idx : Int) }
        img := by
  rw [replaceOrAddCached, h]

theorem replaceOrAdd_notFound (st : PMState) (img : CachedImage)
    (h : st.cache.findIdx? (fun e => splitextBase e.filename == splitextBase img.filename) =
      none) :
    replaceOrAddCached st img =
      notifyPreview { st with
        cache := trimCache st.max_cache_size (st.cache ++ [img]),
        current_index := ((trimCache st.max_cache_size (st.cache ++ [img])).length : Int) - 1 }
        img := by
  rw [replaceOrAddCached, h]

/-- C2 counterexample: loading 51 existing JPEGs from the download
folder at startup (`_load_jpeg_to_cache`, called by
`cleanup_download_folder`) leaves 51 entries in a cache whose bound is
the default 50 — the startup-loading path never evicts. -/
theorem startup_load_overflows_counterexample :
    overfullStartupPM.max_cache_size = 50 ∧ overfullStartupPM.cache.length = 51 ∧
    ¬ overfullStartupPM.cache.length ≤ overfullStartupPM.max_cache_size := by
  refine ⟨rfl, rfl, by decide⟩

/-- C2 (amended): `_add_to_cache` always leaves at most
`max_cache_size` entries, and inserting into an exactly-full cache
evicts precisely the oldest entry (index 0), leaving the size at the
bound; `_replace_or_add_cached` preserves the bound as well; but
`_load_jpeg_to_cache` (startup loading of existing JPEGs) appends
unconditionally, growing the cache by one with no eviction. -/
theorem cache_bound_amended (st : PMState) (img : CachedImage) (fp fn : List Char) (t : Nat) :
    ((addToCache st img).cache.length ≤ st.max_cache_size)
    ∧ (st.cache.length ≤ st.max_cache_size →
        (replaceOrAddCached st img).cache.length ≤ st.max_cache_size)
    ∧ (st.cache.length = st.max_cache_size → 1 ≤ st.max_cache_size →
        (addToCache st img).cache = st.cache.drop 1 ++ [img] ∧
        (addToCache st img).cache.length = st.max_cache_size)
    ∧ ((loadJpegToCache st fp fn (some t)).cache.length = st.cache.length + 1) := by
  refine ⟨?_, ?_, ?_, ?_⟩
  · rw [addToCache_cache, trimCache_length]
    omega
  · intro hle
    cases hidx : st.cache.findIdx?
        (fun e => splitextBase e.filename == splitextBase img.filename) with
    | some idx =>
        rw [replaceOrAdd_found st img idx hidx]
        rw [(notifyPreview_cache _ _).1]
        simpa using hle
    | none =>
        rw [replaceOrAdd_notFound st img hidx]
        rw [(notifyPreview_cache _ _).1]
        rw [trimCache_length]
        omega
  · intro hfull hone
    rw [addToCache_cache, trimCache_eq_drop]
    have hd : (st.cache ++ [img]).length - st.max_cache_size = 1 := by
      rw [List.length_append]; simp only [List.length_singleton]; omega
    rw [hd, List.drop_append_of_le_length (by omega), List.length_append]
    refine ⟨rfl, ?_⟩
    simp only [List.length_append, List.length_drop, List.length_singleton]
    omega
  · rw [loadJpegToCache]
    simp [List.length_append]

/-- Witness for C2 (amended): a bound-1 cache holding one entry evicts
it on the next insert, while a startup load grows it to two. -/
theorem cache_bound_amended_witness :
    (addToCache fullPM imgB).cache.length ≤ fullPM.max_cache_size ∧
    (addToCache fullPM imgB).cache = fullPM.cache.drop 1 ++ [imgB] ∧
    (loadJpegToCache fullPM ("dl/b.jpg").toList ("b.jpg").toList (some 0)).cache.length =
      fullPM.cache.length + 1 := by
  have h := cache_bound_amended fullPM imgB ("dl/b.jpg").toList ("b.jpg").toList 0
  exact ⟨h.1, (h.2.2.1 (by decide) (by decide)).1, h.2.2.2⟩

/-! ## C4: cache navigation -/

theorem navNextS_cache (st : PMState) : (navNextS st).cache = st.cache := by
  rw [navNextS, navigateNext]
  split <;> rfl

theorem navPrevS_cache (st : PMState) : (navPrevS st).cache = st.cache := by
  rw [navPrevS, navigatePrevious]
  split <;> rfl

theorem navNextS_idx (st : PMState) (hne : st.cache.isEmpty = false) :
    (navNextS st).current_index =
      if (st.cache.length : Int) ≤ st.current_index + 1 then 0 else st.current_index + 1 := by
  rw [navNextS, navigateNext]
  simp [hne]

theorem navPrevS_idx (st : PMState) (hne : st.cache.isEmpty = false) :
    (navPrevS st).current_index =
      if st.current_index - 1 < 0 then (st.cache.length : Int) - 1
      else st.current_index - 1 := by
  rw [navPrevS, navigatePrevious]
  simp [hne]

theorem cache_isEmpty_false_of_pos {st : PMState} (h : 0 < st.cache.length) :
    st.cache.isEmpty = false := by
  cases hc : st.cache with
  | nil => rw [hc] at h; cases h
  | cons a l => rfl

theorem navNextS_iter (st : PMState) (m : Nat) (h1 : 0 ≤ st.current_index)
    (h2 : st.current_index < (st.cache.length : Int)) (hm : m ≤ st.cache.length) :
    (navNextS^[m] st).cache = st.cache ∧
    (navNextS^[m] st).current_index =
      (if st.current_index + m < (st.cache.length : Int) then st.current_index + m
       else st.current_index + m - st.cache.length) := by
  induction m with
  | zero =>
      refine ⟨rfl, ?_⟩
      rw [Function.iterate_zero_apply, if_pos (by push_cast; omega)]
      push_cast
      omega
  | succ n ih =>
      obtain ⟨ihc, ihi⟩ := ih (by omega)
      have hpos : 0 < st.cache.length := by
        rcases Nat.eq_zero_or_pos st.cache.length with h | h
        · rw [h] at h2; simp at h2; omega
        · exact h
      rw [Function.iterate_succ_apply']
      refine ⟨by rw [navNextS_cache, ihc], ?_⟩
      rw [navNextS_idx _ (by rw [ihc]; exact cache_isEmpty_false_of_pos hpos), ihc, ihi]
      push_cast
      split_ifs <;> omega

theorem navPrevS_iter (st : PMState) (m : Nat) (h1 : 0 ≤ st.current_index)
    (h2 : st.current_index < (st.cache.length : Int)) (hm : m ≤ st.cache.length) :
    (navPrevS^[m] st).cache = st.cache ∧
    (navPrevS^[m] st).current_index =
      (if 0 ≤ st.current_index - m then st.current_index - m
       else st.current_index - m + st.cache.length) := by
  induction m with
  | zero =>
      refine ⟨rfl, ?_⟩
      rw [Function.iterate_zero_apply, if_pos (by push_cast; omega)]
      push_cast
      omega
  | succ n ih =>
      obtain ⟨ihc, ihi⟩ := ih (by omega)
      have hpos : 0 < st.cache.length := by
        rcases Nat.eq_zero_or_pos st.cache.length with h | h
        · rw [h] at h2; simp at h2; omega
        · exact h
      rw [Function.iterate_succ_apply']
      refine ⟨by rw [navPrevS_cache, ihc], ?_⟩
      rw [navPrevS_idx _ (by rw [ihc]; exact cache_isEmpty_false_of_pos hpos), ihc, ihi]
      push_cast
      split_ifs <;> omega

/-- C4 counterexample: with one cached image and the cursor in live-view
position (−1), a single `navigate_next()` (k = 1 call for a cache of
size k = 1) moves the cursor to 0, not back to its starting value −1;
`navigate_previous()` does the same. -/
theorem navigation_from_live_counterexample :
    liveViewPM.cache.length = 1 ∧ liveViewPM.current_index = -1 ∧
    (navNextS liveViewPM).current_index = 0 ∧
    (navPrevS liveViewPM).current_index = 0 := by
  refine ⟨rfl, rfl, rfl, rfl⟩

/-- C4 (amended): for a cache of k ≥ 1 entries and a starting cursor at
a valid position (0 ≤ cursor < k), k calls of `navigate_next()` return
the cursor to its start, and likewise `navigate_previous()` (from
cursor −1, live view, the round trip fails — see the counterexample);
`navigate_previous` wraps from the oldest entry to the newest and
`navigate_next` wraps from the newest entry to the oldest; on an empty
cache, `navigate_next`, `navigate_previous` and `get_latest_preview`
all return `None` and leave the state unchanged. -/
theorem navigation_spec (st : PMState) :
    (0 ≤ st.current_index → st.current_index < (st.cache.length : Int) →
      (navNextS^[st.cache.length] st).current_index = st.current_index ∧
      (navPrevS^[st.cache.length] st).current_index = st.current_index)
    ∧ (0 < st.cache.length → st.current_index = 0 →
        (navigatePrevious st).1 = st.cache.get? (st.cache.length - 1) ∧
        (navigatePrevious st).2.current_index = (st.cache.length : Int) - 1)
    ∧ (0 < st.cache.length → st.current_index = (st.cache.length : Int) - 1 →
        (navigateNext st).1 = st.cache.get? 0 ∧
        (navigateNext st).2.current_index = 0)
    ∧ (st.cache = [] →
        navigateNext st = (none, st) ∧ navigatePrevious st = (none, st) ∧
        getLatestPreview st = (none, st)) := by
  refine ⟨?_, ?_, ?_, ?_⟩
  · intro h1 h2
    constructor
    · rw [(navNextS_iter st st.cache.length h1 h2 le_rfl).2]
      rw [if_neg (by push_cast; omega)]
      push_cast
      omega
    · rw [(navPrevS_iter st st.cache.length h1 h2 le_rfl).2]
      rw [if_neg (by push_cast; omega)]
      push_cast
      omega
  · intro hpos hidx
    have hne := cache_isEmpty_false_of_pos hpos
    rw [navigatePrevious]
    rw [if_neg (by rw [hne]; simp)]
    rw [hidx]
    have hc : ((0 : Int) - 1 < 0) = True := by simp
    refine ⟨?_, by simp⟩
    simp only [hc, if_true, pyGet, if_pos (by omega : (0:Int) ≤ (st.cache.length : Int) - 1)]
    have ht : ((st.cache.length : Int) - 1).toNat = st.cache.length - 1 := by omega
    rw [ht]
  · intro hpos hidx
    have hne := cache_isEmpty_false_of_pos hpos
    rw [navigateNext]
    rw [if_neg (by rw [hne]; simp)]
    rw [hidx]
    have hc : ((st.cache.length : Int) ≤ (st.cache.length : Int) - 1 + 1) = True := by
      simp
    refine ⟨?_, by simp [hc]⟩
    simp only [hc, if_true, pyGet, if_pos (by omega : (0:Int) ≤ (0:Int))]
    rfl
  · intro hnil
    have hne : st.cache.isEmpty = true := by rw [hnil]; rfl
    rw [navigateNext, navigatePrevious, getLatestPreview]
    simp [hne]

/-- Witness for C4 (amended): a one-entry cache with the cursor at 0
round-trips under one `next` and one `previous`, wraps both ways, and
the empty initial manager state is untouched by navigation. -/
theorem navigation_spec_witness :
    ((navNextS^[onePM.cache.length] onePM).current_index = onePM.current_index ∧
     (navPrevS^[onePM.cache.length] onePM).current_index = onePM.current_index) ∧
    ((navigatePrevious onePM).1 = onePM.cache.get? (onePM.cache.length - 1) ∧
     (navigatePrevious onePM).2.current_index = (onePM.cache.length : Int) - 1) ∧
    (navigateNext (initPMState ("dl").toList) = (none, initPMState ("dl").toList) ∧
     navigatePrevious (initPMState ("dl").toList) = (none, initPMState ("dl").toList) ∧
     getLatestPreview (initPMState ("dl").toList) = (none, initPMState ("dl").toList)) := by
  refine ⟨(navigation_spec onePM).1 (by decide) (by decide),
    (navigation_spec onePM).2.1 (by decide) (by decide),
    (navigation_spec (initPMState ("dl").toList)).2.2.2 rfl⟩

/-! ## C5: replace-by-basename semantics -/

theorem pyGet_trim_concat (maxSize : Nat) (l : List CachedImage) (x : CachedImage)
    (h : 1 ≤ maxSize) :
    pyGet (trimCache maxSize (l ++ [x]))
      (((trimCache maxSize (l ++ [x])).length : Int) - 1) = some x := by
  rw [trimCache_eq_drop]
  have hd : (l ++ [x]).length - maxSize ≤ l.length := by
    rw [List.length_append]; simp only [List.length_singleton]; omega
  rw [List.drop_append_of_le_length hd]
  have hlen : (l.drop ((l ++ [x]).length - maxSize) ++ [x]).length =
      (l.drop ((l ++ [x]).length - maxSize)).length + 1 := by
    rw [List.length_append]; rfl
  rw [pyGet, if_pos (by rw [hlen]; push_cast; omega)]
  have ht : (((l.drop ((l ++ [x]).length - maxSize) ++ [x]).length : Int) - 1).toNat =
      (l.drop ((l ++ [x]).length - maxSize)).length := by
    rw [hlen]; omega
  rw [ht]
  exact List.get?_concat_length _ _

/-- C5: when an image's base name matches an existing cache entry,
`_replace_or_add_cached` overwrites that (first matching) entry in
place — the cache size is unchanged, the entry keeps its index, the
cursor is set to that index, and the registered preview callback is
invoked with the new `CachedImage`; when no entry matches, the image is
appended, the cursor points at the appended entry, and the callback is
invoked. -/
theorem replace_or_add_cached_spec (st : PMState) (img : CachedImage)
    (hcb : st.has_preview_callback = true) (hmax : 1 ≤ st.max_cache_size) :
    (∀ idx,
      st.cache.findIdx? (fun e => splitextBase e.filename == splitextBase img.filename) =
        some idx →
      (replaceOrAddCached st img).cache = st.cache.set idx img ∧
      (replaceOrAddCached st img).cache.length = st.cache.length ∧
      (replaceOrAddCached st img).current_index = (idx : Int) ∧
      (replaceOrAddCached st img).events = st.events ++ [img])
    ∧ (st.cache.findIdx? (fun e => splitextBase e.filename == splitextBase img.filename) =
        none →
      (replaceOrAddCached st img).cache = trimCache st.max_cache_size (st.cache ++ [img]) ∧
      pyGet (replaceOrAddCached st img).cache (replaceOrAddCached st img).current_index =
        some img ∧
      (replaceOrAddCached st img).events = st.events ++ [img]) := by
  constructor
  · intro idx hidx
    rw [replaceOrAdd_found st img idx hidx]
    refine ⟨(notifyPreview_cache _ _).1, ?_, ?_, notifyPreview_events _ _ hcb⟩
    · rw [(notifyPreview_cache _ _).1]
      exact List.length_set st.cache idx img
    · exact (notifyPreview_cache _ _).2.1
  · intro hidx
    rw [replaceOrAdd_notFound st img hidx]
    refine ⟨(notifyPreview_cache _ _).1, ?_, notifyPreview_events _ _ hcb⟩
    rw [(notifyPreview_cache _ _).1, (notifyPreview_cache _ _).2.1]
    exact pyGet_trim_concat st.max_cache_size st.cache img hmax

/-- Witness for C5: replacing the sole entry of a one-image cache (same
base name `a`) keeps size and position and fires the callback; adding a
fresh base name `b` appends, moves the cursor to it and fires the
callback. -/
theorem replace_or_add_cached_spec_witness :
    ((replaceOrAddCached cbPM imgA2).cache = cbPM.cache.set 0 imgA2 ∧
     (replaceOrAddCached cbPM imgA2).cache.length = cbPM.cache.length ∧
     (replaceOrAddCached cbPM imgA2).current_index = ((0 : Nat) : Int) ∧
     (replaceOrAddCached cbPM imgA2).events = cbPM.events ++ [imgA2]) ∧
    ((replaceOrAddCached cbPM imgB).cache =
        trimCache cbPM.max_cache_size (cbPM.cache ++ [imgB]) ∧
     pyGet (replaceOrAddCached cbPM imgB).cache (replaceOrAddCached cbPM imgB).current_index =
        some imgB ∧
     (replaceOrAddCached cbPM imgB).events = cbPM.events ++ [imgB]) := by
  refine ⟨(replace_or_add_cached_spec cbPM imgA2 (by decide) (by decide)).1 0 (by decide),
    (replace_or_add_cached_spec cbPM imgB (by decide) (by decide)).2 (by decide)⟩

/-! ## C7 and C8: RAW/JPEG pairing -/

theorem trimCache_of_le (maxSize : Nat) (l : List CachedImage) (h : l.length ≤ maxSize) :
    trimCache maxSize l = l := by
  rw [trimCache_eq_drop]
  have hz : l.length - maxSize = 0 := by omega
  rw [hz, List.drop_zero]

theorem set_concat_length {α : Type} (l : List α) (a b : α) :
    (l ++ [a]).set l.length b = l ++ [b] := by
  induction l with
  | nil => rfl
  | cons x xs ih => simp only [List.cons_append, List.length_cons, List.set_cons_succ, ih]

theorem findIdx?_concat_of_none {p : CachedImage → Bool} (l : List CachedImage)
    (x : CachedImage) (hx : p x = true) (h : ∀ e ∈ l, p e = false) :
    ∀ i, List.findIdx? p (l ++ [x]) i = some (i + l.length) := by
  induction l with
  | nil => intro i; simp [List.findIdx?_cons, hx]
  | cons a as ih =>
      intro i
      have ha : p a = false := h a (by simp)
      simp only [List.cons_append, List.findIdx?_cons, ha, Bool.false_eq_true, if_false]
      rw [ih (fun e he => h e (by simp [he]))]
      simp only [List.length_cons]
      congr 1
      omega

theorem replaceOrAdd_cache_append (pm : PMState) (img : CachedImage)
    (hnm : ∀ e ∈ pm.cache, (splitextBase e.filename == splitextBase img.filename) = false)
    (hlen : pm.cache.length < pm.max_cache_size) :
    (replaceOrAddCached pm img).cache = pm.cache ++ [img] := by
  rw [replaceOrAdd_notFound pm img
    (List.findIdx?_eq_none_iff.mpr (fun x hx => by simp [hnm x hx]))]
  rw [(notifyPreview_cache _ _).1, trimCache_of_le]
  rw [List.length_append]
  simp only [List.length_singleton]
  omega

theorem countBase_append_new (cache0 : List CachedImage)
    (hnm : ∀ e ∈ cache0, (splitextBase e.filename == base1) = false) :
    countBase (cache0 ++ [imgD]) base1 = 1 := by
  rw [countBase, List.countP_append]
  rw [List.countP_eq_zero.mpr (fun a ha => by simp [hnm a ha])]
  decide

/-- C7 counterexample: after a lone RAW notice, running just the
immediately-spawned extraction thread — while the pairing timer is still
queued, i.e. before the 2-second timeout has elapsed — already puts the
cache entry for the base name in place (via thumbnail extraction), so
the entry does not first appear when the timeout fires. -/
theorem raw_processed_before_timeout_counterexample :
    countBase (c7After2 [] (-1) false []).pm.cache base1 = 1 ∧
    (c7After2 [] (-1) false []).tasks = [TetherTask.timerClear base1] ∧
    (c7After2 [] (-1) false []).log = [CacheLog.cachedFromRaw imgD] := by
  refine ⟨by decide, rfl, rfl⟩

/-- C7 (amended): given only a RAW notice and no JPEG sibling, exactly
one cache entry for that basename appears, produced by the
embedded-thumbnail extraction path — but it is produced by the
background task spawned immediately on arrival, before the pairing
timeout fires; the timeout then merely clears the pending entry (the
RAW, already extracted and deleted, is not re-processed), changing
neither cache, file system nor log. -/
theorem raw_standalone_extraction_spec (cache0 : List CachedImage) (idx : Int) (cb : Bool)
    (ev : List CachedImage)
    (hnm : ∀ e ∈ cache0, (splitextBase e.filename == base1) = false)
    (hlen : cache0.length < 50) :
    countBase (c7After2 cache0 idx cb ev).pm.cache base1 = 1
    ∧ (c7After2 cache0 idx cb ev).tasks = [TetherTask.timerClear base1]
    ∧ (c7After2 cache0 idx cb ev).log = [CacheLog.cachedFromRaw imgD]
    ∧ (c7After2 cache0 idx cb ev).fs.contains rawPath1 = false
    ∧ c7After3 cache0 idx cb ev =
        { c7After2 cache0 idx cb ev with pending_raw := [], tasks := [] } := by
  have h2 : c7After2 cache0 idx cb ev =
      { pm := replaceOrAddCached ((tetherStart cache0 idx cb ev).pm) imgD,
        pending_raw := [(base1, rawPath1, 0)],
        fs := [savedJpg1],
        tasks := [TetherTask.timerClear base1],
        log := [CacheLog.cachedFromRaw imgD] } := rfl
  have hcache : (replaceOrAddCached ((tetherStart cache0 idx cb ev).pm) imgD).cache =
      cache0 ++ [imgD] :=
    replaceOrAdd_cache_append _ imgD hnm hlen
  refine ⟨?_, by rw [h2], by rw [h2], by rw [h2]; rfl, ?_⟩
  · rw [h2]
    show countBase (replaceOrAddCached ((tetherStart cache0 idx cb ev).pm) imgD).cache base1 = 1
    rw [hcache]
    exact countBase_append_new cache0 hnm
  · have h3 : c7After3 cache0 idx cb ev =
        runTask alwaysExtract (c7After2 cache0 idx cb ev) 0 := rfl
    rw [h3, h2]
    rfl

/-- Witness for C7 (amended): the scenario run from an empty cache. -/
theorem raw_standalone_extraction_spec_witness :
    countBase (c7After2 [] (-1) false []).pm.cache base1 = 1
    ∧ (c7After2 [] (-1) false []).fs.contains rawPath1 = false
    ∧ c7After3 [] (-1) false [] =
        { c7After2 [] (-1) false [] with pending_raw := [], tasks := [] } := by
  have h := raw_standalone_extraction_spec [] (-1) false []
    (fun e he => absurd he (List.not_mem_nil e)) (by decide)
  exact ⟨h.1, h.2.2.2.1, h.2.2.2.2⟩

/-- C8: a RAW notice followed by its JPEG sibling within the pairing
timeout consumes the pending-RAW entry (the JPEG branch pops it, so the
timer finds nothing to do on expiry), leaves exactly one cache entry for
the basename — produced by `_process_jpeg_file` from the JPEG — and
removes the RAW file from disk.  Proved for both interleavings of the
immediately-spawned extraction thread: the thread runs after the JPEG
(schedule B: it finds the RAW already deleted and does nothing) or
before it (schedule A: the JPEG processing replaces the extracted
thumbnail entry in place). -/
theorem notifyPreview_eq (st : PMState) (img : CachedImage) :
    notifyPreview st img =
      { st with events := if st.has_preview_callback then st.events ++ [img] else st.events } := by
  rw [notifyPreview]
  split
  · rfl
  · rfl

theorem raw_jpeg_pairing_spec (cache0 : List CachedImage) (idx : Int) (cb : Bool)
    (ev : List CachedImage)
    (hnm : ∀ e ∈ cache0, (splitextBase e.filename == base1) = false)
    (hlen : cache0.length < 50) :
    (countBase (c8bTimer cache0 idx cb ev).pm.cache base1 = 1
     ∧ (c8bTimer cache0 idx cb ev).log = [CacheLog.cachedFromJpeg imgD]
     ∧ (c8bTimer cache0 idx cb ev).fs.contains rawPath1 = false
     ∧ (c8bJpeg cache0 idx cb ev).pending_raw = []
     ∧ c8bRaw cache0 idx cb ev =
        { c8bJpeg cache0 idx cb ev with tasks := [TetherTask.timerClear base1] }
     ∧ c8bTimer cache0 idx cb ev = { c8bRaw cache0 idx cb ev with tasks := [] })
    ∧ (countBase (c8aTimer cache0 idx cb ev).pm.cache base1 = 1
     ∧ (c8aTimer cache0 idx cb ev).log.getLast? = some (CacheLog.cachedFromJpeg imgD)
     ∧ (c8aTimer cache0 idx cb ev).fs.contains rawPath1 = false
     ∧ (c8aJpeg cache0 idx cb ev).pending_raw = []
     ∧ c8aTimer cache0 idx cb ev = { c8aJpeg cache0 idx cb ev with tasks := [] }) := by
  have hcache : (replaceOrAddCached ((tetherStart cache0 idx cb ev).pm) imgD).cache =
      cache0 ++ [imgD] :=
    replaceOrAdd_cache_append _ imgD hnm hlen
  have hb1 : c8bJpeg cache0 idx cb ev =
      { pm := replaceOrAddCached ((tetherStart cache0 idx cb ev).pm) imgD,
        pending_raw := [],
        fs := [jpgPath1, savedJpg1],
        tasks := [TetherTask.processRaw rawPath1, TetherTask.timerClear base1],
        log := [CacheLog.cachedFromJpeg imgD] } := rfl
  have hb2 : c8bRaw cache0 idx cb ev =
      { pm := replaceOrAddCached ((tetherStart cache0 idx cb ev).pm) imgD,
        pending_raw := [],
        fs := [jpgPath1, savedJpg1],
        tasks := [TetherTask.timerClear base1],
        log := [CacheLog.cachedFromJpeg imgD] } := rfl
  have hb3 : c8bTimer cache0 idx cb ev =
      { pm := replaceOrAddCached ((tetherStart cache0 idx cb ev).pm) imgD,
        pending_raw := [],
        fs := [jpgPath1, savedJpg1],
        tasks := [],
        log := [CacheLog.cachedFromJpeg imgD] } := rfl
  have hfind1 : ((tetherStart cache0 idx cb ev).pm).cache.findIdx?
      (fun e => splitextBase e.filename == splitextBase imgD.filename) = none :=
    List.findIdx?_eq_none_iff.mpr (fun x hx => by
      simp only [show splitextBase imgD.filename = base1 from rfl]
      simp [hnm x hx])
  have hc0 : (tetherStart cache0 idx cb ev).pm.cache = cache0 := rfl
  have hm0 : (tetherStart cache0 idx cb ev).pm.max_cache_size = 50 := rfl
  have hpm1 : replaceOrAddCached ((tetherStart cache0 idx cb ev).pm) imgD =
      pmAfterExtract cache0 cb ev := by
    rw [replaceOrAdd_notFound _ _ hfind1, notifyPreview_eq, hc0, hm0]
    rw [trimCache_of_le _ _ (by rw [List.length_append]; simp; omega)]
    rfl
  have h2 : c7After2 cache0 idx cb ev =
      { pm := replaceOrAddCached ((tetherStart cache0 idx cb ev).pm) imgD,
        pending_raw := [(base1, rawPath1, 0)],
        fs := [savedJpg1],
        tasks := [TetherTask.timerClear base1],
        log := [CacheLog.cachedFromRaw imgD] } := rfl
  have h2' : c7After2 cache0 idx cb ev =
      { pm := pmAfterExtract cache0 cb ev,
        pending_raw := [(base1, rawPath1, 0)],
        fs := [savedJpg1],
        tasks := [TetherTask.timerClear base1],
        log := [CacheLog.cachedFromRaw imgD] } := by rw [h2, hpm1]
  have ha1 : c8aJpeg cache0 idx cb ev =
      { pm := replaceOrAddCached (pmAfterExtract cache0 cb ev) imgD,
        pending_raw := [],
        fs := [savedJpg1, jpgPath1],
        tasks := [TetherTask.timerClear base1],
        log := [CacheLog.cachedFromRaw imgD, CacheLog.cachedFromJpeg imgD] } := by
    show processDownloadedFile
      { c7After2 cache0 idx cb ev with
        fs := fsAdd (c7After2 cache0 idx cb ev).fs jpgPath1 } jpgPath1 = _
    rw [h2']
    rfl
  have ha2 : c8aTimer cache0 idx cb ev =
      { pm := replaceOrAddCached (pmAfterExtract cache0 cb ev) imgD,
        pending_raw := [],
        fs := [savedJpg1, jpgPath1],
        tasks := [],
        log := [CacheLog.cachedFromRaw imgD, CacheLog.cachedFromJpeg imgD] } := by
    show runTask alwaysExtract (c8aJpeg cache0 idx cb ev) 0 = _
    rw [ha1]
    rfl
  have hfind2 : ((pmAfterExtract cache0 cb ev).cache).findIdx?
      (fun e => splitextBase e.filename == splitextBase imgD.filename) =
      some cache0.length := by
    show (cache0 ++ [imgD]).findIdx? _ = _
    simp only [show splitextBase imgD.filename = base1 from rfl]
    rw [findIdx?_concat_of_none cache0 imgD (by decide) (fun e he => hnm e he) 0,
      Nat.zero_add]
  have hcache2 : (replaceOrAddCached (pmAfterExtract cache0 cb ev) imgD).cache =
      cache0 ++ [imgD] := by
    rw [replaceOrAdd_found _ imgD cache0.length hfind2, (notifyPreview_cache _ _).1]
    show (cache0 ++ [imgD]).set cache0.length imgD = _
    exact set_concat_length cache0 imgD imgD
  refine ⟨⟨?_, by rw [hb3], by rw [hb3]; rfl, by rw [hb1], by rw [hb1, hb2], by rw [hb2, hb3]⟩,
    ?_, by rw [ha2]; rfl, by rw [ha2]; rfl, by rw [ha1], by rw [ha1, ha2]⟩
  · rw [hb3]
    show countBase (replaceOrAddCached ((tetherStart cache0 idx cb ev).pm) imgD).cache base1 = 1
    rw [hcache]
    exact countBase_append_new cache0 hnm
  · rw [ha2]
    show countBase (replaceOrAddCached (pmAfterExtract cache0 cb ev) imgD).cache base1 = 1
    rw [hcache2]
    exact countBase_append_new cache0 hnm

/-- Witness for C8: both pairing schedules run from an empty cache. -/
theorem raw_jpeg_pairing_spec_witness :
    (countBase (c8bTimer [] (-1) false []).pm.cache base1 = 1
     ∧ (c8bTimer [] (-1) false []).log = [CacheLog.cachedFromJpeg imgD]
     ∧ (c8bTimer [] (-1) false []).fs.contains rawPath1 = false)
    ∧ (countBase (c8aTimer [] (-1) false []).pm.cache base1 = 1
     ∧ (c8aTimer [] (-1) false []).log.getLast? = some (CacheLog.cachedFromJpeg imgD)
     ∧ (c8aTimer [] (-1) false []).fs.contains rawPath1 = false) := by
  have h := raw_jpeg_pairing_spec [] (-1) false []
    (fun e he => absurd he (List.not_mem_nil e)) (by decide)
  exact ⟨⟨h.1.1, h.1.2.1, h.1.2.2.1⟩, ⟨h.2.1, h.2.2.1, h.2.2.2.1⟩⟩

end A7cam
